import Mathlib

/-!
Shallow embedding of the System-Log-Validator core
(`src/python-validator/src/models.py`, `rule_engine.py`, `validator.py`).

JSON-like Python values are modelled by `Value`; Python exceptions raised
during rule evaluation are modelled by `Except EvalError`; Python dicts are
modelled by insertion-ordered association lists (CPython dicts preserve
insertion order, and the code relies on nothing else).
-/

namespace SysLogVal

/-- A JSON-like Python runtime value, as carried in log-entry payloads and
rule thresholds. Floats are not modelled (every numeric literal in the
repository's rules, tests and examples is an integer). -/
inductive Value where
  | null
  | bool (b : Bool)
  | int (n : Int)
  | str (s : String)
  | list (xs : List Value)
  | dict (xs : List (String × Value))
deriving Repr

/-- Python exceptions that can escape the evaluation helpers:
`unknownOperator` models the `ValueError(f"Unknown operator: ...")` raised by
`RuleEngine.evaluate_condition`; the others model `TypeError`, `KeyError`,
`AttributeError` and `re.error`. -/
inductive EvalError where
  | unknownOperator (name : String)
  | typeError
  | keyError (k : String)
  | attributeError
  | regexError
deriving Repr, DecidableEq

/-- First-match lookup in an association list (Python `d[k]` / `d.get(k)`
on a duplicate-free insertion-ordered dict). -/
def alistLookup {α : Type} : List (String × α) → String → Option α
  | [], _ => none
  | (k', v) :: rest, k => if k' = k then some v else alistLookup rest k

/-- In-place update of the value stored at key `k` (Python mutation of the
object already stored in the dict); no change when the key is absent. -/
def alistModify {α : Type} : List (String × α) → String → (α → α) → List (String × α)
  | [], _, _ => []
  | (k', v) :: rest, k, f =>
      if k' = k then (k', f v) :: rest else (k', v) :: alistModify rest k f

/-- `defaultdict(int)` increment `d[k] += 1`: bump in place when present,
append `(k, 1)` at the end otherwise (insertion order preserved). -/
def alistIncr : List (String × Nat) → String → List (String × Nat)
  | [], k => [(k, 1)]
  | (k', v) :: rest, k =>
      if k' = k then (k', v + 1) :: rest else (k', v) :: alistIncr rest k

/-- Python truthiness (`bool(v)`) for the modelled values. -/
def pyTruthy : Value → Bool
  | .null => false
  | .bool b => b
  | .int n => n != 0
  | .str s => s ≠ ""
  | .list xs => !xs.isEmpty
  | .dict xs => !xs.isEmpty

/-- `v[k]` subscripting with a string key: dict lookup (`KeyError` when the
key is absent), `TypeError` on every non-dict value. -/
def pySubscript : Value → String → Except EvalError Value
  | .dict d, k =>
      match alistLookup d k with
      | some v => .ok v
      | none => .error (.keyError k)
  | _, _ => .error .typeError

/-- A Python `bool`/`int` read as an integer (`True == 1`). -/
def Value.asNum : Value → Option Int
  | .bool b => some (if b then 1 else 0)
  | .int n => some n
  | _ => none

def Value.isNull : Value → Bool
  | .null => true
  | _ => false

mutual

/-- Python `==` on the modelled values: numbers compare across `bool`/`int`,
lists elementwise, dicts by key-value content; values of different
categories are unequal (never an error). -/
def pyEq : Value → Value → Bool
  | .null, .null => true
  | .null, _ => false
  | _, .null => false
  | .str s, .str t => s = t
  | .list xs, .list ys => pyEqList xs ys
  | .dict xs, .dict ys => pyEqDictLe xs ys && (ys.all fun kv => xs.any fun kv' => kv'.1 = kv.1)
  | a, b =>
      match a.asNum, b.asNum with
      | some m, some n => m = n
      | _, _ => false

def pyEqList : List Value → List Value → Bool
  | [], [] => true
  | x :: xs, y :: ys => pyEq x y && pyEqList xs ys
  | _, _ => false

/-- Every key of the first dict maps to a `pyEq`-equal value in the second. -/
def pyEqDictLe : List (String × Value) → List (String × Value) → Bool
  | [], _ => true
  | (k, v) :: xs, ys =>
      (match alistLookup ys k with
       | some w => pyEq v w
       | none => false) && pyEqDictLe xs ys

end

mutual

/-- Python `a < b`: defined across `bool`/`int` numbers, strings
(lexicographic), and lists (lexicographic, element comparisons may
themselves raise); every other combination raises `TypeError`. -/
def pyLt : Value → Value → Except EvalError Bool
  | .str s, .str t => .ok (decide (s < t))
  | .list xs, .list ys => pyLtList xs ys
  | a, b =>
      match a.asNum, b.asNum with
      | some m, some n => .ok (decide (m < n))
      | _, _ => .error .typeError

def pyLtList : List Value → List Value → Except EvalError Bool
  | [], [] => .ok false
  | [], _ :: _ => .ok true
  | _ :: _, [] => .ok false
  | x :: xs, y :: ys => if pyEq x y then pyLtList xs ys else pyLt x y

end

/-- Python `a <= b`; for the types on which `<` is defined this is
`a < b or a == b`, raising exactly when `<` raises. -/
def pyLe (a b : Value) : Except EvalError Bool :=
  (pyLt a b).map (fun lt => lt || pyEq a b)

/-- Python `a > b` (same domain as `<`). -/
def pyGt (a b : Value) : Except EvalError Bool := pyLt b a

/-- Python `a >= b` (same domain as `<=`). -/
def pyGe (a b : Value) : Except EvalError Bool := pyLe b a

mutual

/-- Python `str(v)` for the modelled values (nested containers render their
elements with `repr`; escaping of quotes inside strings is not modelled, no
rule or record in the repository contains such strings). -/
def pyStr : Value → String
  | .null => "None"
  | .bool b => if b then "True" else "False"
  | .int n => toString n
  | .str s => s
  | .list xs => "[" ++ ", ".intercalate (pyReprList xs) ++ "]"
  | .dict xs => "\x7b" ++ ", ".intercalate (pyReprDict xs) ++ "\x7d"

/-- Python `repr(v)`: like `str` but strings are quoted. -/
def pyRepr : Value → String
  | .null => "None"
  | .bool b => if b then "True" else "False"
  | .int n => toString n
  | .str s => "'" ++ s ++ "'"
  | .list xs => "[" ++ ", ".intercalate (pyReprList xs) ++ "]"
  | .dict xs => "\x7b" ++ ", ".intercalate (pyReprDict xs) ++ "\x7d"

def pyReprList : List Value → List String
  | [] => []
  | x :: xs => pyRepr x :: pyReprList xs

def pyReprDict : List (String × Value) → List String
  | [] => []
  | (k, v) :: xs => ("'" ++ k ++ "': " ++ pyRepr v) :: pyReprDict xs

end

/-- Python `s.split(sep)` for a single-character separator `'.'`: split on
every occurrence, keeping empty segments (`"".split(".") == [""]`,
`"a..b".split(".") == ["a", "", "b"]`). -/
def splitDotAux : List Char → List Char → List String
  | [], cur => [String.mk cur]
  | c :: rest, cur =>
      if c = '.' then String.mk cur :: splitDotAux rest []
      else splitDotAux rest (cur ++ [c])

/-- `field.split(".")`. -/
def pySplitDot (s : String) : List String := splitDotAux s.data []

/-! ## Data model (`models.py`) -/

/-- `Severity` enum (models.py lines 11-16). -/
inductive Severity where
  | info | warning | error | critical
deriving Repr, DecidableEq

/-- `Severity(...).value`. -/
def Severity.value : Severity → String
  | .info => "info"
  | .warning => "warning"
  | .error => "error"
  | .critical => "critical"

/-- `ValidationStatus` enum (models.py lines 19-22). -/
inductive ValidationStatus where
  | pass | fail
deriving Repr, DecidableEq

/-- `Rule` dataclass (models.py lines 25-38). The fields annotated `str` in
the dataclass are modelled as `String`; `threshold` is `Any` (a `Value`,
`null` when the key is absent); `condition`/`then` are the raw optional
dict values exactly as stored by `from_dict`. The source field `then` is a
Lean keyword and is named `thenClause` here. -/
structure Rule where
  id : String
  name : String
  field : String
  operator : String
  threshold : Value
  severity : Severity
  message : String
  description : String := ""
  type : String := "simple"
  condition : Option Value := none
  thenClause : Option Value := none
deriving Repr

/-- `LogEntry` dataclass (models.py lines 59-65). `raw_data` is the decoded
payload dict. -/
structure LogEntry where
  timestamp : String
  robot_id : String
  raw_data : List (String × Value)
  index : Nat := 0
deriving Repr

/-- `Violation` dataclass (models.py lines 78-90). -/
structure Violation where
  rule_id : String
  rule_name : String
  severity : Severity
  message : String
  timestamp : String
  robot_id : String
  field : String
  actual_value : Value
  expected : String
  log_index : Nat
deriving Repr

/-- `EntryResult` dataclass (models.py lines 108-117). -/
structure EntryResult where
  log_entry : LogEntry
  status : ValidationStatus
  violations : List Violation
deriving Repr

/-- `EntryResult.passed` property. -/
def EntryResult.passed (r : EntryResult) : Bool := r.status = ValidationStatus.pass

/-- `RobotSummary` dataclass (models.py lines 120-127). -/
structure RobotSummary where
  robot_id : String
  total_entries : Nat := 0
  violations_count : Nat := 0
  status : ValidationStatus := .pass
  violations : List Violation := []
deriving Repr

/-! ## Rule engine (`rule_engine.py`) -/

/-- An operator predicate `(actual, expected) -> bool`; a Python predicate
may raise, hence the `Except`. -/
abbrev OperatorPred := Value → Value → Except EvalError Bool

/-- The behaviour of Python's `re.match(pattern, string)` turned into a
boolean (`bool(re.match(...))`), with `.error ()` standing for `re.error`
on an invalid pattern. The engine model is parametric in it, exactly as
the code is parametric in the external `re` module. -/
abbrev RegexMatcher := String → String → Except Unit Bool

/-- `xs` is an initial segment of `ys`. -/
def listPrefixEq : List Char → List Char → Bool
  | [], _ => true
  | _ :: _, [] => false
  | x :: xs, y :: ys => x = y && listPrefixEq xs ys

/-- `needle` occurs contiguously in `hay`. -/
def listContainsSeg (needle : List Char) : List Char → Bool
  | [] => listPrefixEq needle []
  | hay@(_ :: rest) => listPrefixEq needle hay || listContainsSeg needle rest

/-- Substring test `needle in haystack` on Python strings. -/
def strContains (haystack needle : String) : Bool :=
  listContainsSeg needle.data haystack.data

/-- `RuleEngine._default_operators` (rule_engine.py lines 24-40), entry by
entry in source order. Each lambda's `None` guard and `isinstance` test is
reproduced; comparisons delegate to the Python comparison semantics
(`pyLt`/`pyLe`/...), which raise `TypeError` on incomparable values just as
the interpreter does. -/
def defaultOperators (rm : RegexMatcher) : List (String × OperatorPred) :=
  [ (">=", fun a b => if a.isNull then .ok false else pyGe a b),
    (">", fun a b => if a.isNull then .ok false else pyGt a b),
    ("<=", fun a b => if a.isNull then .ok false else pyLe a b),
    ("<", fun a b => if a.isNull then .ok false else pyLt a b),
    ("==", fun a b => .ok (pyEq a b)),
    ("!=", fun a b => .ok (!pyEq a b)),
    ("in", fun a b =>
      match b with
      | .list xs => .ok (xs.any fun x => pyEq a x)
      | _ => .ok false),
    ("not_in", fun a b =>
      match b with
      | .list xs => .ok (!xs.any fun x => pyEq a x)
      | _ => .ok true),
    ("regex", fun a b =>
      if a.isNull then .ok false
      else
        match b with
        | .str pat => (rm pat (pyStr a)).mapError fun _ => .regexError
        | _ => .error .typeError),
    ("exists", fun a b => .ok (pyEq (.bool !a.isNull) b)),
    ("contains", fun a b =>
      if a.isNull then .ok false
      else
        match b with
        | .str needle => .ok (strContains (pyStr a) needle)
        | _ => .error .typeError),
    ("starts_with", fun a b =>
      if a.isNull then .ok false
      else
        match b with
        | .str p => .ok ((pyStr a).startsWith p)
        | _ => .error .typeError),
    ("ends_with", fun a b =>
      if a.isNull then .ok false
      else
        match b with
        | .str p => .ok ((pyStr a).endsWith p)
        | _ => .error .typeError) ]

/-- `RuleEngine` (rule_engine.py lines 14-22): a rule list and the operator
registry. A fresh engine carries `defaultOperators rm` for the ambient
regex matcher `rm`. -/
structure RuleEngine where
  rules : List Rule
  operators : List (String × OperatorPred)

/-- `RuleEngine.__init__` with no rules loaded. -/
def RuleEngine.init (rm : RegexMatcher) : RuleEngine :=
  { rules := [], operators := defaultOperators rm }

/-- `d[name] = func` on the operator dict: overwrite in place, else append. -/
def alistSet : List (String × OperatorPred) → String → OperatorPred →
    List (String × OperatorPred)
  | [], k, f => [(k, f)]
  | (k', g) :: rest, k, f =>
      if k' = k then (k', f) :: rest else (k', g) :: alistSet rest k f

/-- `RuleEngine.register_operator` (rule_engine.py lines 42-44). -/
def RuleEngine.register_operator (eng : RuleEngine) (name : String)
    (f : OperatorPred) : RuleEngine :=
  { eng with operators := alistSet eng.operators name f }

/-- `RuleEngine.get_field_value` (rule_engine.py lines 63-77): split the
dotted path on `"."` and loop over the parts, stepping through dicts with
`.get` (absent keys give `None`) and returning `None` early as soon as the
current value is not a dict. The early `return None` of the loop is the
`Except.error` exit of the fold. -/
def get_field_value (entry : LogEntry) (field : String) : Value :=
  let parts := pySplitDot field
  match parts.foldlM
      (fun data part =>
        match data with
        | Value.dict d => Except.ok ((alistLookup d part).getD .null)
        | _ => Except.error Value.null)
      (Value.dict entry.raw_data) with
  | .ok v => v
  | .error v => v

/-- `RuleEngine.evaluate_condition` (rule_engine.py lines 79-86): resolve
the field, then fail with the `Unknown operator` `ValueError` when the
operator name is not registered, else apply the registered predicate. -/
def evaluate_condition (eng : RuleEngine) (entry : LogEntry) (field : String)
    (operator : String) (value : Value) : Except EvalError Bool :=
  let actual := get_field_value entry field
  match alistLookup eng.operators operator with
  | none => .error (.unknownOperator operator)
  | some p => p actual value

/-- `evaluate_condition` called with runtime values for `field`/`operator`
(as the conditional-rule path does with `rule.condition["field"]` etc.):
a non-string field raises `AttributeError` at `field.split(".")`; a
list/dict operator raises `TypeError` (unhashable) at the registry
membership test, any other non-string operator is simply not a key and
raises the `Unknown operator` `ValueError`. -/
def evaluate_condition_raw (eng : RuleEngine) (entry : LogEntry)
    (field operator value : Value) : Except EvalError Bool :=
  match field with
  | .str f =>
      match operator with
      | .str op => evaluate_condition eng entry f op value
      | .list _ => .error .typeError
      | .dict _ => .error .typeError
      | other => .error (.unknownOperator (pyStr other))
  | _ => .error .attributeError

/-- `RuleEngine._evaluate_simple_rule` (rule_engine.py lines 102-121). -/
def evaluate_simple_rule (eng : RuleEngine) (rule : Rule) (entry : LogEntry) :
    Except EvalError (Option Violation) := do
  let passed ← evaluate_condition eng entry rule.field rule.operator rule.threshold
  if !passed then
    let actual := get_field_value entry rule.field
    return some
      { rule_id := rule.id
        rule_name := rule.name
        severity := rule.severity
        message := rule.message
        timestamp := entry.timestamp
        robot_id := entry.robot_id
        field := rule.field
        actual_value := actual
        expected := rule.operator ++ " " ++ pyStr rule.threshold
        log_index := entry.index }
  else
    return none

/-- One clause of a conditional rule: subscript out `"field"`, `"operator"`,
`"value"` (each may raise `KeyError`/`TypeError`) and evaluate, exactly the
argument evaluation of the `evaluate_condition` calls at rule_engine.py
lines 132-137 and 144-149. -/
def evaluate_clause (eng : RuleEngine) (entry : LogEntry) (c : Value) :
    Except EvalError Bool := do
  let f ← pySubscript c "field"
  let op ← pySubscript c "operator"
  let v ← pySubscript c "value"
  evaluate_condition_raw eng entry f op v

/-- `RuleEngine._evaluate_conditional_rule` (rule_engine.py lines 123-166).
The guard is Python truthiness of the raw `condition`/`then` values
(`if not rule.condition or not rule.then`); the violation branch
re-subscripts the clause dicts just as the source's f-string does. -/
def evaluate_conditional_rule (eng : RuleEngine) (rule : Rule)
    (entry : LogEntry) : Except EvalError (Option Violation) := do
  if !(rule.condition.elim false pyTruthy) || !(rule.thenClause.elim false pyTruthy) then
    return none
  let c := rule.condition.getD .null
  let t := rule.thenClause.getD .null
  let condition_met ← evaluate_clause eng entry c
  if !condition_met then
    return none
  let then_passed ← evaluate_clause eng entry t
  if !then_passed then
    let tf ← pySubscript t "field"
    match tf with
    | .str fieldStr =>
        let actual := get_field_value entry fieldStr
        let tOp ← pySubscript t "operator"
        let tVal ← pySubscript t "value"
        let cf ← pySubscript c "field"
        let cOp ← pySubscript c "operator"
        let cVal ← pySubscript c "value"
        return some
          { rule_id := rule.id
            rule_name := rule.name
            severity := rule.severity
            message := rule.message
            timestamp := entry.timestamp
            robot_id := entry.robot_id
            field := fieldStr
            actual_value := actual
            expected := pyStr tOp ++ " " ++ pyStr tVal ++ " (when " ++ pyStr cf
              ++ " " ++ pyStr cOp ++ " " ++ pyStr cVal ++ ")"
            log_index := entry.index }
    | _ => .error .attributeError
  else
    return none

/-- The body of the `try` block in `RuleEngine.evaluate_rule`
(rule_engine.py lines 93-97): dispatch on `rule.type == "conditional"`. -/
def evaluate_rule_core (eng : RuleEngine) (rule : Rule) (entry : LogEntry) :
    Except EvalError (Option Violation) :=
  if rule.type = "conditional" then evaluate_conditional_rule eng rule entry
  else evaluate_simple_rule eng rule entry

/-- `RuleEngine.evaluate_rule` (rule_engine.py lines 88-100): the
`except Exception` handler turns every evaluation error into `None`. -/
def evaluate_rule (eng : RuleEngine) (rule : Rule) (entry : LogEntry) :
    Option Violation :=
  match evaluate_rule_core eng rule entry with
  | .ok v => v
  | .error _ => none

/-- `RuleEngine.validate_entry` (rule_engine.py lines 168-177): loop over
the catalog appending each produced violation. -/
def RuleEngine.validate_entry (eng : RuleEngine) (entry : LogEntry) :
    List Violation :=
  eng.rules.foldl
    (fun acc rule =>
      match evaluate_rule eng rule entry with
      | some v => acc ++ [v]
      | none => acc)
    []

/-! ## Validator / aggregator (`validator.py`)

The mutable attributes of a `Validator` form `ValidatorState`; the two
optional callbacks only observe violations/results and touch no validator
state, so they do not appear in the state transition. -/

/-- The mutable state of a `Validator` (validator.py lines 38-47). The two
`defaultdict(int)` counters and the robot-summary dict are insertion-ordered
association lists. -/
structure ValidatorState where
  total_entries : Nat := 0
  total_passed : Nat := 0
  total_violations : Nat := 0
  violations_by_rule : List (String × Nat) := []
  violations_by_severity : List (String × Nat) := []
  robot_summaries : List (String × RobotSummary) := []
  all_violations : List Violation := []
deriving Repr

/-- The state right after `Validator.__init__` (or `reset`). -/
def initState : ValidatorState := {}

/-- `Validator.pass_rate` (validator.py lines 67-71), as exact rational
arithmetic (the Python computation is on floats; every spec-level statement
about it is about the real-number value). -/
def pass_rate (s : ValidatorState) : ℚ :=
  if s.total_entries = 0 then 100
  else ((s.total_passed : ℚ) / (s.total_entries : ℚ)) * 100

/-- The body of the `for violation in violations` loop of
`Validator.validate_entry` (validator.py lines 95-107): bump the global
counters, append to the global list, and mutate the robot's summary object
in place. -/
def applyViolation (rid : String) (s : ValidatorState) (v : Violation) :
    ValidatorState :=
  { s with
    total_violations := s.total_violations + 1
    violations_by_rule := alistIncr s.violations_by_rule v.rule_id
    violations_by_severity := alistIncr s.violations_by_severity v.severity.value
    all_violations := s.all_violations ++ [v]
    robot_summaries := alistModify s.robot_summaries rid
      (fun rs =>
        { rs with
          violations_count := rs.violations_count + 1
          status := ValidationStatus.fail
          violations := rs.violations ++ [v] }) }

/-- `Validator.validate_entry` (validator.py lines 73-113) as a state
transition, returning the new state and the `EntryResult` the method
returns. The `on_violation`/`on_entry` callbacks receive the violations in
this same order and do not alter the state. -/
def Validator.validate_entry (eng : RuleEngine) (s : ValidatorState)
    (entry : LogEntry) : ValidatorState × EntryResult :=
  let violations := eng.validate_entry entry
  let status := if violations.isEmpty then ValidationStatus.pass
                else ValidationStatus.fail
  let result : EntryResult :=
    { log_entry := entry, status := status, violations := violations }
  let s1 := { s with total_entries := s.total_entries + 1 }
  let s2 := if result.passed then { s1 with total_passed := s1.total_passed + 1 }
            else s1
  let s3 :=
    if (alistLookup s2.robot_summaries entry.robot_id).isSome then s2
    else { s2 with
           robot_summaries :=
             s2.robot_summaries ++ [(entry.robot_id, { robot_id := entry.robot_id })] }
  let s4 := { s3 with
              robot_summaries :=
                alistModify s3.robot_summaries entry.robot_id
                  (fun rs => { rs with total_entries := rs.total_entries + 1 }) }
  let s5 := violations.foldl (applyViolation entry.robot_id) s4
  (s5, result)

/-- Processing a whole record list in arrival order from a fresh validator
(`validate_all` / repeated `validate_entry`). -/
def processAll (eng : RuleEngine) (entries : List LogEntry) : ValidatorState :=
  entries.foldl (fun s e => (Validator.validate_entry eng s e).1) initState

/-- `ValidationReport` dataclass (models.py lines 140-153). `generated_at`
is produced by the `default_factory` reading the wall clock at construction
time; the clock reading is the explicit `now` argument of `get_report`
below. -/
structure ValidationReport where
  total_entries : Nat
  total_passed : Nat
  total_violations : Nat
  pass_rate : ℚ
  violations_by_rule : List (String × Nat)
  violations_by_severity : List (String × Nat)
  robot_summaries : List (String × RobotSummary)
  violations : List Violation
  generated_at : String
  rules_file : String
  input_file : String
deriving Repr

/-- `Validator.get_report` (validator.py lines 127-140): the field values of
the returned `ValidationReport` at the moment it is constructed. CPython
builds `violations_by_rule`/`violations_by_severity` as fresh `dict(...)`
copies, but stores `self._robot_summaries` and `self._all_violations`
themselves (lines 136-137) — the aliasing consequences of that are modelled
by `report_robot_summaries_read`/`report_violations_read` below. -/
def get_report (s : ValidatorState) (rules_file input_file now : String) :
    ValidationReport :=
  { total_entries := s.total_entries
    total_passed := s.total_passed
    total_violations := s.total_violations
    pass_rate := pass_rate s
    violations_by_rule := s.violations_by_rule
    violations_by_severity := s.violations_by_severity
    robot_summaries := s.robot_summaries
    violations := s.all_violations
    generated_at := now
    rules_file := rules_file
    input_file := input_file }

/-- Reading the `robot_summaries` attribute of a Report previously returned
by `get_report`, at a moment when the validator's current state is `s`: the
Report holds a reference to the validator's live summary dict
(validator.py line 136, no copy), so the read observes the current state,
not the snapshot-time state. -/
def report_robot_summaries_read (s : ValidatorState) :
    List (String × RobotSummary) :=
  s.robot_summaries

/-- Reading the `violations` attribute of a Report previously returned by
`get_report`, at a moment when the validator's current state is `s`: the
Report holds a reference to the validator's live `_all_violations` list
(validator.py line 137, no copy). -/
def report_violations_read (s : ValidatorState) : List Violation :=
  s.all_violations

/-! ## Rule loading (`models.py` `Rule.from_dict`) -/

/-- Errors raised while constructing a `Rule` from a dict:
`missingId` is the `KeyError` of `data["id"]`, `badSeverity` the
`ValueError` of `Severity(...)` on an unlisted value. `unmodelledShape` marks
rule dicts outside the modelled domain (a non-string value under a key the
dataclass declares as `str`) — the claims quantify over string-typed rule
fields only. -/
inductive LoadError where
  | missingId
  | badSeverity
  | unmodelledShape
deriving Repr, DecidableEq

/-- `Severity(v)`: enum lookup by value string. -/
def Severity.fromValue : Value → Except LoadError Severity
  | .str "info" => .ok .info
  | .str "warning" => .ok .warning
  | .str "error" => .ok .error
  | .str "critical" => .ok .critical
  | _ => .error .badSeverity

/-- `data.get(k, default)` where the dataclass declares the field `str`. -/
def getStrField (d : List (String × Value)) (k : String) (dflt : String) :
    Except LoadError String :=
  match alistLookup d k with
  | none => .ok dflt
  | some (.str s) => .ok s
  | some _ => .error .unmodelledShape

/-- `Rule.from_dict` (models.py lines 40-56): `id` is required, `name`
defaults to `id`, `severity` defaults to `"warning"`, `type` defaults to
`"simple"`, `condition`/`then` are stored raw. -/
def Rule.from_dict (data : List (String × Value)) : Except LoadError Rule := do
  let sev ← Severity.fromValue
    ((alistLookup data "severity").getD (.str "warning"))
  let idStr ←
    match alistLookup data "id" with
    | none => .error LoadError.missingId
    | some (.str s) => .ok s
    | some _ => .error .unmodelledShape
  let name ← getStrField data "name" idStr
  let field ← getStrField data "field" ""
  let operator ← getStrField data "operator" ""
  let message ← getStrField data "message" ""
  let description ← getStrField data "description" ""
  let type ← getStrField data "type" "simple"
  return { id := idStr
           name := name
           field := field
           operator := operator
           threshold := (alistLookup data "threshold").getD .null
           severity := sev
           message := message
           description := description
           type := type
           condition := alistLookup data "condition"
           thenClause := alistLookup data "then" }

/-! ## Association-list lemmas -/

theorem alistLookup_alistModify {α : Type} (l : List (String × α)) (k k2 : String)
    (f : α → α) :
    alistLookup (alistModify l k f) k2 =
      if k2 = k then (alistLookup l k2).map f else alistLookup l k2 := by
  induction l with
  | nil =>
      by_cases h : k2 = k <;> simp [alistModify, alistLookup, h]
  | cons hd tl ih =>
      obtain ⟨k', v⟩ := hd
      simp only [alistModify]
      by_cases h1 : k' = k
      · rw [if_pos h1]
        by_cases h2 : k' = k2
        · rw [h1] at h2
          subst h2
          simp [alistLookup, h1]
        · have hk2 : ¬k2 = k := fun hh => h2 (h1.trans hh.symm)
          simp [alistLookup, h2, hk2]
      · rw [if_neg h1]
        by_cases h2 : k' = k2
        · have hk2 : ¬k2 = k := fun hh => h1 (h2.trans hh)
          simp [alistLookup, h2, hk2]
        · simp [alistLookup, h2, ih]

theorem alistModify_pointwise_id {α : Type} (l : List (String × α)) (k : String)
    (f : α → α) (hf : ∀ x, f x = x) : alistModify l k f = l := by
  induction l with
  | nil => rfl
  | cons hd tl ih =>
      obtain ⟨k', v⟩ := hd
      by_cases h : k' = k <;> simp [alistModify, h, hf, ih]

theorem alistModify_comp {α : Type} (l : List (String × α)) (k : String)
    (f g : α → α) :
    alistModify (alistModify l k f) k g = alistModify l k (fun x => g (f x)) := by
  induction l with
  | nil => rfl
  | cons hd tl ih =>
      obtain ⟨k', v⟩ := hd
      by_cases h : k' = k <;> simp [alistModify, h, ih]

theorem alistModify_congr {α : Type} (l : List (String × α)) (k : String)
    (f g : α → α) (h : ∀ x, f x = g x) :
    alistModify l k f = alistModify l k g := by
  induction l with
  | nil => rfl
  | cons hd tl ih =>
      obtain ⟨k', v⟩ := hd
      by_cases hk : k' = k <;> simp [alistModify, hk, h, ih]

theorem alistLookup_append {α : Type} (l1 l2 : List (String × α)) (k : String) :
    alistLookup (l1 ++ l2) k =
      match alistLookup l1 k with
      | some v => some v
      | none => alistLookup l2 k := by
  induction l1 with
  | nil => simp [alistLookup]
  | cons hd tl ih =>
      obtain ⟨k', v⟩ := hd
      by_cases h : k' = k <;> simp [alistLookup, h, ih]

/-! ## `Validator.validate_entry` step lemmas -/

/-- The total effect of one processed record on its robot's summary:
one more record, the record's violations appended, `fail` as soon as any
violation arrived. -/
def stepSummary (rs : RobotSummary) (vs : List Violation) : RobotSummary :=
  { rs with
    total_entries := rs.total_entries + 1
    violations_count := rs.violations_count + vs.length
    status := if vs.isEmpty then rs.status else ValidationStatus.fail
    violations := rs.violations ++ vs }

theorem foldl_applyViolation_summaries (rid : String) (vs : List Violation)
    (s : ValidatorState) :
    (vs.foldl (applyViolation rid) s).robot_summaries =
      alistModify s.robot_summaries rid (fun rs =>
        { rs with
          violations_count := rs.violations_count + vs.length
          status := if vs.isEmpty then rs.status else ValidationStatus.fail
          violations := rs.violations ++ vs }) := by
  induction vs generalizing s with
  | nil =>
      simp only [List.foldl_nil, List.length_nil, List.isEmpty_nil, if_true,
        List.append_nil, Nat.add_zero]
      rw [alistModify_pointwise_id]
      intro rs
      rfl
  | cons v vs ih =>
      simp only [List.foldl_cons]
      rw [ih]
      simp only [applyViolation]
      rw [alistModify_comp]
      apply alistModify_congr
      intro rs
      cases rs
      simp [RobotSummary.mk.injEq, List.isEmpty_cons]
      omega

theorem foldl_applyViolation_violations (rid : String) (vs : List Violation)
    (s : ValidatorState) :
    (vs.foldl (applyViolation rid) s).all_violations = s.all_violations ++ vs := by
  induction vs generalizing s with
  | nil => simp
  | cons v vs ih => simp [applyViolation, ih]

theorem validate_entry_all_violations (eng : RuleEngine) (s : ValidatorState)
    (e : LogEntry) :
    ((Validator.validate_entry eng s e).1).all_violations =
      s.all_violations ++ eng.validate_entry e := by
  simp only [Validator.validate_entry]
  rw [foldl_applyViolation_violations]
  cases hpres : alistLookup s.robot_summaries e.robot_id <;>
    simp [hpres, apply_ite ValidatorState.all_violations]

/-- The net effect of one `Validator.validate_entry` call on the summary
map: ensure the robot's entry exists, then apply `stepSummary` to it. -/
theorem validate_entry_summaries (eng : RuleEngine) (s : ValidatorState)
    (e : LogEntry) :
    ((Validator.validate_entry eng s e).1).robot_summaries =
      alistModify
        (match alistLookup s.robot_summaries e.robot_id with
         | some _ => s.robot_summaries
         | none =>
             s.robot_summaries ++ [(e.robot_id, ({ robot_id := e.robot_id } : RobotSummary))])
        e.robot_id
        (fun rs => stepSummary rs (eng.validate_entry e)) := by
  simp only [Validator.validate_entry]
  rw [foldl_applyViolation_summaries]
  cases hpres : alistLookup s.robot_summaries e.robot_id with
  | some rs0 =>
      simp only [hpres, Option.isSome_some, if_true,
        apply_ite ValidatorState.robot_summaries, ite_self]
      rw [alistModify_comp]
      apply alistModify_congr
      intro rs
      cases rs
      simp [stepSummary]
  | none =>
      simp only [hpres, Option.isSome_none, Bool.false_eq_true, if_false,
        apply_ite ValidatorState.robot_summaries, ite_self]
      rw [alistModify_comp]
      apply alistModify_congr
      intro rs
      cases rs
      simp [stepSummary]

theorem validate_entry_summaries_lookup (eng : RuleEngine) (s : ValidatorState)
    (e : LogEntry) (E : String) :
    alistLookup ((Validator.validate_entry eng s e).1).robot_summaries E =
      if E = e.robot_id then
        some (stepSummary
          ((alistLookup s.robot_summaries e.robot_id).getD { robot_id := e.robot_id })
          (eng.validate_entry e))
      else alistLookup s.robot_summaries E := by
  rw [validate_entry_summaries, alistLookup_alistModify]
  cases hpres : alistLookup s.robot_summaries e.robot_id with
  | some rs0 =>
      by_cases hE : E = e.robot_id
      · subst hE
        simp [hpres]
      · simp [hE]
  | none =>
      by_cases hE : E = e.robot_id
      · subst hE
        rw [if_pos rfl, if_pos rfl, alistLookup_append, hpres]
        simp [alistLookup]
      · rw [if_neg hE, if_neg hE, alistLookup_append]
        have hE2 : ¬e.robot_id = E := fun hh => hE hh.symm
        cases h : alistLookup s.robot_summaries E
        · simp [alistLookup, hE2]
        · rfl

theorem processAll_append (eng : RuleEngine) (entries : List LogEntry)
    (e : LogEntry) :
    processAll eng (entries ++ [e]) =
      (Validator.validate_entry eng (processAll eng entries) e).1 := by
  simp [processAll, List.foldl_append]

/-! ## Per-robot counting -/

/-- Number of processed records whose `robot_id` is `E`. -/
def countE (entries : List LogEntry) (E : String) : Nat :=
  entries.countP (fun e => e.robot_id == E)

/-- Total number of violations produced by the records whose `robot_id`
is `E`. -/
def violCountE (eng : RuleEngine) (entries : List LogEntry) (E : String) : Nat :=
  ((entries.filter (fun e => e.robot_id == E)).map
    (fun e => (eng.validate_entry e).length)).sum

theorem countE_append_of_eq (entries : List LogEntry) (e : LogEntry) (E : String)
    (h : e.robot_id = E) : countE (entries ++ [e]) E = countE entries E + 1 := by
  simp [countE, List.countP_append, List.countP_cons, h]

theorem countE_append_of_ne (entries : List LogEntry) (e : LogEntry) (E : String)
    (h : ¬e.robot_id = E) : countE (entries ++ [e]) E = countE entries E := by
  simp [countE, List.countP_append, List.countP_cons, h]

theorem violCountE_append_of_eq (eng : RuleEngine) (entries : List LogEntry)
    (e : LogEntry) (E : String) (h : e.robot_id = E) :
    violCountE eng (entries ++ [e]) E =
      violCountE eng entries E + (eng.validate_entry e).length := by
  simp [violCountE, List.filter_append, List.filter_cons, h]

theorem violCountE_append_of_ne (eng : RuleEngine) (entries : List LogEntry)
    (e : LogEntry) (E : String) (h : ¬e.robot_id = E) :
    violCountE eng (entries ++ [e]) E = violCountE eng entries E := by
  simp [violCountE, List.filter_append, List.filter_cons, h]

theorem violCountE_of_countE_zero (eng : RuleEngine) (entries : List LogEntry)
    (E : String) (h : countE entries E = 0) : violCountE eng entries E = 0 := by
  have hfil : entries.filter (fun e => e.robot_id == E) = [] := by
    rw [List.filter_eq_nil]
    intro a ha
    have := List.countP_eq_zero.mp h a ha
    simpa using this
  simp [violCountE, hfil]

theorem countE_pos_of_mem (entries : List LogEntry) (E : String)
    (h : E ∈ entries.map LogEntry.robot_id) : 0 < countE entries E := by
  rw [List.mem_map] at h
  obtain ⟨e, he, hrid⟩ := h
  rw [countE, List.countP_pos]
  exact ⟨e, he, by simp [hrid]⟩

/-- The running summary-map invariant maintained across `processAll`. -/
theorem summaries_inv (eng : RuleEngine) (entries : List LogEntry) (E : String) :
    (alistLookup (processAll eng entries).robot_summaries E = none →
       countE entries E = 0) ∧
    (∀ rs, alistLookup (processAll eng entries).robot_summaries E = some rs →
       rs.total_entries = countE entries E ∧
       rs.violations_count = violCountE eng entries E ∧
       rs.status = (if violCountE eng entries E = 0 then ValidationStatus.pass
                    else ValidationStatus.fail)) := by
  induction entries using List.reverseRecOn with
  | nil =>
      constructor
      · intro _
        simp [countE]
      · intro rs hrs
        simp [processAll, initState, alistLookup] at hrs
  | append_singleton es e ih =>
      rw [processAll_append]
      constructor
      · intro hnone
        rw [validate_entry_summaries_lookup] at hnone
        by_cases hE : E = e.robot_id
        · rw [if_pos hE] at hnone
          exact absurd hnone (by simp)
        · rw [if_neg hE] at hnone
          rw [countE_append_of_ne es e E (fun hh => hE hh.symm)]
          exact ih.1 hnone
      · intro rs hrs
        rw [validate_entry_summaries_lookup] at hrs
        by_cases hE : E = e.robot_id
        · rw [if_pos hE, ← hE] at hrs
          rw [Option.some.injEq] at hrs
          subst hrs
          rw [countE_append_of_eq es e E hE.symm,
            violCountE_append_of_eq eng es e E hE.symm]
          cases hprev : alistLookup (processAll eng es).robot_summaries E with
          | none =>
              have h0 : countE es E = 0 := ih.1 hprev
              have hv0 : violCountE eng es E = 0 := violCountE_of_countE_zero eng es E h0
              refine ⟨by simp [stepSummary, h0], by simp [stepSummary, hv0], ?_⟩
              rw [hv0]
              by_cases hlen : (eng.validate_entry e).length = 0
              · rw [List.length_eq_zero.mp hlen]
                simp [stepSummary]
              · have : ¬(eng.validate_entry e).isEmpty := by
                  cases hv : eng.validate_entry e
                  · rw [hv] at hlen; simp at hlen
                  · simp
                simp only [stepSummary, Nat.zero_add]
                rw [if_neg this, if_neg hlen]
          | some rs0 =>
              obtain ⟨h1, h2, h3⟩ := ih.2 rs0 hprev
              refine ⟨by simp [stepSummary, h1], by simp [stepSummary, h2], ?_⟩
              by_cases hlen : (eng.validate_entry e).length = 0
              · rw [List.length_eq_zero.mp hlen]
                simpa [stepSummary] using h3
              · have hne : ¬(eng.validate_entry e).isEmpty := by
                  cases hv : eng.validate_entry e
                  · rw [hv] at hlen; simp at hlen
                  · simp
                have hsum : ¬(violCountE eng es E + (eng.validate_entry e).length = 0) := by
                  omega
                simp only [stepSummary]
                rw [if_neg hne, if_neg hsum]
        · rw [if_neg hE] at hrs
          rw [countE_append_of_ne es e E (fun hh => hE hh.symm),
            violCountE_append_of_ne eng es e E (fun hh => hE hh.symm)]
          exact ih.2 rs hrs

/-! ## Violation-collection lemmas -/

theorem collect_foldl_filterMap (f : Rule → Option Violation) (rules : List Rule)
    (acc : List Violation) :
    rules.foldl
      (fun acc rule =>
        match f rule with
        | some v => acc ++ [v]
        | none => acc)
      acc = acc ++ rules.filterMap f := by
  induction rules generalizing acc with
  | nil => simp
  | cons r rs ih =>
      cases hf : f r <;> simp [List.filterMap_cons, hf, ih]

theorem validate_entry_filterMap (eng : RuleEngine) (e : LogEntry) :
    eng.validate_entry e = eng.rules.filterMap (fun r => evaluate_rule eng r e) := by
  have h := collect_foldl_filterMap (fun r => evaluate_rule eng r e) eng.rules []
  simpa [RuleEngine.validate_entry] using h

theorem processAll_all_violations (eng : RuleEngine) (entries : List LogEntry) :
    (processAll eng entries).all_violations =
      (entries.map (fun e => eng.validate_entry e)).join := by
  induction entries using List.reverseRecOn with
  | nil => rfl
  | append_singleton es e ih =>
      rw [processAll_append, validate_entry_all_violations, ih]
      simp

/-! ## Field resolution, spec-side definition -/

/-- Modelled from the spec: `resolve_field(record, dotted_path)` "walks the
payload by splitting the path on `.`; at each step, if the current value is
not a keyed container, resolution short-circuits and returns null". Stated
over the list of path parts; compared with the source-translated
`get_field_value` in the C7 theorem. -/
def resolve_field_spec : List String → Value → Value
  | [], v => v
  | p :: ps, .dict d => resolve_field_spec ps ((alistLookup d p).getD .null)
  | _ :: _, _ => .null

theorem get_field_walk (parts : List String) (v : Value) :
    (match parts.foldlM
        (fun data part =>
          match data with
          | Value.dict d => Except.ok ((alistLookup d part).getD .null)
          | _ => Except.error Value.null) v with
     | .ok w => w
     | .error w => w) = resolve_field_spec parts v := by
  induction parts generalizing v with
  | nil => rfl
  | cons p ps ih =>
      cases v with
      | dict d =>
          rw [List.foldlM_cons]
          exact ih ((alistLookup d p).getD .null)
      | null => rfl
      | bool b => rfl
      | int n => rfl
      | str s => rfl
      | list xs => rfl

/-! ## Concrete engines, rules and records used by the witnesses -/

/-- A concrete stand-in for the external regex matcher: never matches. -/
def rmNone : RegexMatcher := fun _ _ => .ok false

def batteryRule : Rule :=
  { id := "battery_min", name := "Battery Minimum", field := "battery_level",
    operator := ">=", threshold := .int 20, severity := .warning,
    message := "Battery below 20%" }

def speedRule : Rule :=
  { id := "speed_max", name := "Speed Maximum", field := "speed",
    operator := "<=", threshold := .int 100, severity := .error,
    message := "Speed exceeds limit" }

/-- The two-rule engine of the repository's test fixtures. -/
def engW : RuleEngine :=
  { rules := [batteryRule, speedRule], operators := defaultOperators rmNone }

def mkEntry (rid : String) (battery speed : Int) : LogEntry :=
  { timestamp := "2024-01-15T08:00:00Z", robot_id := rid,
    raw_data := [("robot_id", .str rid), ("battery_level", .int battery),
                 ("speed", .int speed)] }

/-- The four-record stream of the test fixtures / spec Scenario C. -/
def logsW : List LogEntry :=
  [mkEntry "ROBOT_001" 80 50, mkEntry "ROBOT_001" 15 40,
   mkEntry "ROBOT_002" 60 120, mkEntry "ROBOT_002" 10 110]

def engOne : RuleEngine :=
  { rules := [batteryRule], operators := defaultOperators rmNone }

def failEntry : LogEntry := mkEntry "ROBOT_009" 5 50

/-- Validator state after processing `failEntry` once (one violation). -/
def s1W : ValidatorState := processAll engOne [failEntry]

/-- State after processing `failEntry` a second time. -/
def s2W : ValidatorState := (Validator.validate_entry engOne s1W failEntry).1

/-- Spec Scenario B's conditional rule. -/
def condRuleW : Rule :=
  { id := "low_battery_idle", name := "low battery idle", field := "",
    operator := "", threshold := .null, severity := .warning,
    message := "must be idle on low battery", type := "conditional",
    condition := some (.dict [("field", .str "battery_level"),
      ("operator", .str "<"), ("value", .int 10)]),
    thenClause := some (.dict [("field", .str "movement_state"),
      ("operator", .str "in"), ("value", .list [.str "idle", .str "stopped"])]) }

def engCondW : RuleEngine :=
  { rules := [condRuleW], operators := defaultOperators rmNone }

def entryCondPass : LogEntry :=
  { timestamp := "t", robot_id := "R",
    raw_data := [("battery_level", .int 50), ("movement_state", .str "moving")] }

def entryCondLow : LogEntry :=
  { timestamp := "t", robot_id := "R",
    raw_data := [("battery_level", .int 5), ("movement_state", .str "moving")] }

/-- A simple rule naming an operator absent from the registry. -/
def unknownOpRule : Rule :=
  { id := "u1", name := "u1", field := "battery_level", operator := "frobnicate",
    threshold := .int 1, severity := .info, message := "m" }

/-- A conditional rule whose `then` clause names an unknown operator. -/
def condBadThen : Rule :=
  { id := "c2", name := "c2", field := "", operator := "", threshold := .null,
    severity := .warning, message := "m", type := "conditional",
    condition := some (.dict [("field", .str "battery_level"),
      ("operator", .str "<"), ("value", .int 10)]),
    thenClause := some (.dict [("field", .str "movement_state"),
      ("operator", .str "frobnate"), ("value", .int 1)]) }

/-- A rule whose `type` string is neither `"simple"` nor `"conditional"`. -/
def fancyRule : Rule :=
  { id := "f1", name := "f1", field := "battery_level", operator := ">=",
    threshold := .int 20, severity := .warning, message := "m", type := "fancy" }

def fancyDict : List (String × Value) :=
  [("id", .str "f1"), ("type", .str "fancy"), ("field", .str "x"),
   ("operator", .str "=="), ("threshold", .int 1)]

def entryABC : LogEntry :=
  { timestamp := "", robot_id := "r",
    raw_data := [("a", .dict [("b", .dict [("c", .int 7)])])] }

def entryABnull : LogEntry :=
  { timestamp := "", robot_id := "r",
    raw_data := [("a", .dict [("b", .null)])] }

def entryA5 : LogEntry :=
  { timestamp := "", robot_id := "r",
    raw_data := [("a", .int 5)] }

/-! ## Claim theorems -/

/-- C1 (counterexample): a Report returned by `get_report` is NOT a value
snapshot. `get_report` stores the validator's live `_all_violations` list in
the Report (validator.py line 137, no copy), so after `validate_entry`
processes one more failing record, reading the previously returned Report's
`violations` attribute yields a 2-element list where the snapshot had 1 —
the Report's field changed. -/
theorem report_snapshot_refuted :
    (report_violations_read s1W).length = 1 ∧
    (report_violations_read s2W).length = 2 ∧
    report_violations_read s2W ≠ report_violations_read s1W := by
  refine ⟨rfl, rfl, fun h => ?_⟩
  have hl := congrArg List.length h
  rw [show (report_violations_read s2W).length = 2 from rfl,
    show (report_violations_read s1W).length = 1 from rfl] at hl
  exact absurd hl (by decide)

/-- C1 (amended): after `get_report`, further `validate_entry` calls leave
the Report's scalar fields and its copied `violations_by_rule` /
`violations_by_severity` dicts unchanged, but the Report's
`robot_summaries` and `violations` attributes alias the validator's live
containers: reading them after one more `validate_entry` observes the old
list extended by the new record's violations (and the updated summary), so
they do change whenever the new record produced a violation. -/
theorem report_aliasing_behavior (eng : RuleEngine) (s : ValidatorState)
    (e : LogEntry) (rf inpf now : String) :
    ((get_report s rf inpf now).total_entries = s.total_entries ∧
     (get_report s rf inpf now).violations_by_rule = s.violations_by_rule ∧
     (get_report s rf inpf now).violations_by_severity = s.violations_by_severity) ∧
    report_violations_read ((Validator.validate_entry eng s e).1) =
      report_violations_read s ++ eng.validate_entry e ∧
    alistLookup (report_robot_summaries_read ((Validator.validate_entry eng s e).1))
        e.robot_id =
      some (stepSummary
        ((alistLookup s.robot_summaries e.robot_id).getD { robot_id := e.robot_id })
        (eng.validate_entry e)) ∧
    (eng.validate_entry e ≠ [] →
      report_violations_read ((Validator.validate_entry eng s e).1) ≠
        report_violations_read s) := by
  refine ⟨⟨rfl, rfl, rfl⟩, ?_, ?_, ?_⟩
  · simp only [report_violations_read]
    exact validate_entry_all_violations eng s e
  · simp only [report_robot_summaries_read]
    rw [validate_entry_summaries_lookup, if_pos rfl]
  · intro hne h
    simp only [report_violations_read] at h
    rw [validate_entry_all_violations] at h
    have hl := congrArg List.length h
    simp only [List.length_append] at hl
    have hz : (eng.validate_entry e).length = 0 := by omega
    exact hne (List.length_eq_zero.mp hz)

theorem report_aliasing_behavior_witness :
    report_violations_read ((Validator.validate_entry engOne s1W failEntry).1) ≠
      report_violations_read s1W := by
  refine (report_aliasing_behavior engOne s1W failEntry "" "" "T").2.2.2 ?_
  intro h
  have hl := congrArg List.length h
  rw [show (engOne.validate_entry failEntry).length = 1 from rfl] at hl
  exact absurd hl (by decide)

/-- C2 (counterexample): two `get_report` calls with no intervening
`validate_entry` do NOT yield Reports with all field values identical:
`generated_at` is produced by the dataclass `default_factory` reading the
wall clock at construction time (models.py line 151), so two calls whose
clock readings differ return Reports differing in `generated_at`. -/
theorem finalize_reports_differ :
    get_report initState "" "" "2024-01-01T00:00:00Z" ≠
      get_report initState "" "" "2024-01-01T00:00:01Z" := by
  intro h
  have hg := congrArg ValidationReport.generated_at h
  simp only [get_report] at hg
  exact absurd hg (by decide)

/-- C2 (amended): two `get_report` calls on the same state with no
intervening `validate_entry` yield Reports identical in every field except
`generated_at`; in particular they coincide exactly when the two calls read
the same clock value. -/
theorem finalize_idempotent_up_to_timestamp (s : ValidatorState)
    (rf inpf t1 t2 : String) :
    ((get_report s rf inpf t1).total_entries = (get_report s rf inpf t2).total_entries ∧
     (get_report s rf inpf t1).total_passed = (get_report s rf inpf t2).total_passed ∧
     (get_report s rf inpf t1).total_violations = (get_report s rf inpf t2).total_violations ∧
     (get_report s rf inpf t1).pass_rate = (get_report s rf inpf t2).pass_rate ∧
     (get_report s rf inpf t1).violations_by_rule = (get_report s rf inpf t2).violations_by_rule ∧
     (get_report s rf inpf t1).violations_by_severity = (get_report s rf inpf t2).violations_by_severity ∧
     (get_report s rf inpf t1).robot_summaries = (get_report s rf inpf t2).robot_summaries ∧
     (get_report s rf inpf t1).violations = (get_report s rf inpf t2).violations ∧
     (get_report s rf inpf t1).rules_file = (get_report s rf inpf t2).rules_file ∧
     (get_report s rf inpf t1).input_file = (get_report s rf inpf t2).input_file) ∧
    (t1 = t2 → get_report s rf inpf t1 = get_report s rf inpf t2) :=
  ⟨⟨rfl, rfl, rfl, rfl, rfl, rfl, rfl, rfl, rfl, rfl⟩, fun h => by rw [h]⟩

theorem finalize_idempotent_up_to_timestamp_witness :
    get_report initState "" "" "2024-01-01T00:00:00Z" =
      get_report initState "" "" "2024-01-01T00:00:00Z" :=
  (finalize_idempotent_up_to_timestamp initState "" ""
    "2024-01-01T00:00:00Z" "2024-01-01T00:00:00Z").2 rfl

/-- C3: for every processed record sequence and every robot id `E` that
appears in it, the accumulated `RobotSummary` for `E` has `total_entries`
equal to the number of records with that id, `violations_count` equal to
the total number of violations those records produced, and `status = fail`
iff `violations_count > 0`. -/
theorem robot_summary_invariants (eng : RuleEngine) (entries : List LogEntry)
    (E : String) (hE : E ∈ entries.map LogEntry.robot_id) :
    ∃ rs, alistLookup (processAll eng entries).robot_summaries E = some rs ∧
      rs.total_entries = countE entries E ∧
      rs.violations_count = violCountE eng entries E ∧
      (rs.status = ValidationStatus.fail ↔ 0 < rs.violations_count) := by
  have hpos := countE_pos_of_mem entries E hE
  cases hlook : alistLookup (processAll eng entries).robot_summaries E with
  | none =>
      have h0 := (summaries_inv eng entries E).1 hlook
      omega
  | some rs =>
      obtain ⟨h1, h2, h3⟩ := (summaries_inv eng entries E).2 rs hlook
      refine ⟨rs, rfl, h1, h2, ?_⟩
      rw [h3, h2]
      by_cases hv : violCountE eng entries E = 0
      · rw [if_pos hv, hv]
        constructor
        · intro hcontra
          exact absurd hcontra (by decide)
        · omega
      · rw [if_neg hv]
        constructor
        · intro _
          omega
        · intro _
          rfl

theorem robot_summary_invariants_witness :
    (∃ rs, alistLookup (processAll engW logsW).robot_summaries "ROBOT_002" = some rs ∧
      rs.total_entries = countE logsW "ROBOT_002" ∧
      rs.violations_count = violCountE engW logsW "ROBOT_002" ∧
      (rs.status = ValidationStatus.fail ↔ 0 < rs.violations_count)) ∧
    countE logsW "ROBOT_002" = 2 ∧ violCountE engW logsW "ROBOT_002" = 3 :=
  ⟨robot_summary_invariants engW logsW "ROBOT_002" (by decide), rfl, rfl⟩

/-- C4: `evaluate_rule` never propagates an evaluation failure — whenever
the dispatched rule evaluation (simple or conditional) raises any error,
the `except Exception` handler returns no violation for that rule on that
record. -/
theorem evaluate_rule_fail_open (eng : RuleEngine) (rule : Rule)
    (entry : LogEntry) (err : EvalError)
    (h : evaluate_rule_core eng rule entry = .error err) :
    evaluate_rule eng rule entry = none := by
  simp [evaluate_rule, h]

theorem evaluate_rule_fail_open_witness :
    (evaluate_rule_core engW unknownOpRule failEntry =
       .error (.unknownOperator "frobnicate") ∧
     evaluate_rule engW unknownOpRule failEntry = none) ∧
    (evaluate_rule_core engCondW condBadThen entryCondLow =
       .error (.unknownOperator "frobnate") ∧
     evaluate_rule engCondW condBadThen entryCondLow = none) :=
  ⟨⟨rfl, evaluate_rule_fail_open engW unknownOpRule failEntry
      (.unknownOperator "frobnicate") rfl⟩,
   ⟨rfl, evaluate_rule_fail_open engCondW condBadThen entryCondLow
      (.unknownOperator "frobnate") rfl⟩⟩

/-- C5: called directly, `evaluate_condition` raises the `Unknown operator`
error precisely when the operator name is absent from the registry, and
otherwise returns exactly the registered predicate applied to the resolved
field value and the rule value — the fail-open wrapper does not cover this
path. -/
theorem evaluate_condition_registry_contract (eng : RuleEngine)
    (entry : LogEntry) (field op : String) (value : Value) :
    (alistLookup eng.operators op = none →
      evaluate_condition eng entry field op value = .error (.unknownOperator op)) ∧
    (∀ p, alistLookup eng.operators op = some p →
      evaluate_condition eng entry field op value =
        p (get_field_value entry field) value) := by
  constructor
  · intro h
    simp [evaluate_condition, h]
  · intro p h
    simp [evaluate_condition, h]

theorem evaluate_condition_registry_contract_witness :
    evaluate_condition engW failEntry "battery_level" "nosuch" (.int 1) =
      .error (.unknownOperator "nosuch") ∧
    evaluate_condition engW failEntry "battery_level" "==" (.int 5) =
      Except.ok (pyEq (get_field_value failEntry "battery_level") (.int 5)) := by
  constructor
  · exact (evaluate_condition_registry_contract engW failEntry "battery_level"
      "nosuch" (.int 1)).1 rfl
  · exact (evaluate_condition_registry_contract engW failEntry "battery_level"
      "==" (.int 5)).2 (fun a b => Except.ok (pyEq a b)) rfl

/-- C6: for a conditional rule with both clauses present (truthy), if the
`condition` clause's predicate evaluates to `false`, `evaluate_rule`
produces no violation — the `then` clause is never consulted. -/
theorem conditional_condition_false_no_violation (eng : RuleEngine)
    (rule : Rule) (entry : LogEntry)
    (htype : rule.type = "conditional")
    (hc : rule.condition.elim false pyTruthy = true)
    (ht : rule.thenClause.elim false pyTruthy = true)
    (hfalse : evaluate_clause eng entry (rule.condition.getD .null) = .ok false) :
    evaluate_rule eng rule entry = none := by
  simp [evaluate_rule, evaluate_rule_core, htype, evaluate_conditional_rule,
    hc, ht, hfalse, Bind.bind, Except.bind, pure, Except.pure]

theorem conditional_condition_false_no_violation_witness :
    evaluate_rule engCondW condRuleW entryCondPass = none :=
  conditional_condition_false_no_violation engCondW condRuleW entryCondPass
    rfl rfl rfl rfl

/-- C7: `get_field_value` splits the dotted path on `"."` and walks the
payload, returning null as soon as the current value is not a dict, and it
is a total function (no error case in its result type); it refines the
spec-side `resolve_field_spec`, and resolves the three spec examples as
stated. -/
theorem get_field_value_resolution :
    (∀ (entry : LogEntry) (field : String),
       get_field_value entry field =
         resolve_field_spec (pySplitDot field) (.dict entry.raw_data)) ∧
    get_field_value entryABC "a.b.c" = .int 7 ∧
    get_field_value entryABnull "a.b.c" = .null ∧
    get_field_value entryA5 "a.b.c" = .null := by
  refine ⟨?_, rfl, rfl, rfl⟩
  intro entry field
  simp only [get_field_value]
  exact get_field_walk (pySplitDot field) (.dict entry.raw_data)

/-- C8: `pass_rate` is `100.0` when no record has been processed, and
`100 * total_passed / total_entries` otherwise. -/
theorem pass_rate_formula (s : ValidatorState) :
    (s.total_entries = 0 → pass_rate s = 100) ∧
    (s.total_entries ≠ 0 →
      pass_rate s = 100 * (s.total_passed : ℚ) / (s.total_entries : ℚ)) := by
  constructor
  · intro h
    simp [pass_rate, h]
  · intro h
    rw [pass_rate, if_neg h]
    ring

def stateW : ValidatorState := { total_entries := 4, total_passed := 1 }

theorem pass_rate_formula_witness :
    pass_rate initState = 100 ∧
    pass_rate stateW = 100 * (stateW.total_passed : ℚ) / (stateW.total_entries : ℚ) :=
  ⟨(pass_rate_formula initState).1 rfl, (pass_rate_formula stateW).2 (by decide)⟩

/-- C9: the validator's global violation list is the concatenation, in
record-arrival order, of the per-record violation lists, and each record's
violation list is the rule catalog filtered in catalog order through
`evaluate_rule`. -/
theorem violation_ordering (eng : RuleEngine) (entries : List LogEntry) :
    (processAll eng entries).all_violations =
      (entries.map (fun e => eng.validate_entry e)).join ∧
    ∀ e, eng.validate_entry e =
      eng.rules.filterMap (fun r => evaluate_rule eng r e) :=
  ⟨processAll_all_violations eng entries, fun e => validate_entry_filterMap eng e⟩

/-- C10: a rule whose `type` is any string other than `"conditional"` is
evaluated along the simple-comparison path (there is no rejection of
unrecognized kinds), and `Rule.from_dict` stores whatever `type` string the
input dict carries without validating it. -/
theorem unrecognized_rule_kind_simple (eng : RuleEngine) (rule : Rule)
    (entry : LogEntry) (h : rule.type ≠ "conditional") :
    evaluate_rule eng rule entry =
      (match evaluate_simple_rule eng rule entry with
       | .ok v => v
       | .error _ => none) ∧
    (∀ d t r, alistLookup d "type" = some (.str t) →
       Rule.from_dict d = .ok r → r.type = t) := by
  constructor
  · simp [evaluate_rule, evaluate_rule_core, h]
  · intro d t r hl hr
    simp only [Rule.from_dict, getStrField, hl, bind, Except.bind, pure,
      Except.pure] at hr
    repeat' split at hr
    all_goals first
      | exact Except.noConfusion hr
      | (injection hr with hh; subst hh; rfl)

theorem unrecognized_rule_kind_simple_witness :
    (evaluate_rule engW fancyRule failEntry =
      (match evaluate_simple_rule engW fancyRule failEntry with
       | .ok v => v
       | .error _ => none)) ∧
    (∃ r, Rule.from_dict fancyDict = .ok r ∧ r.type = "fancy") := by
  constructor
  · exact (unrecognized_rule_kind_simple engW fancyRule failEntry (by decide)).1
  · obtain ⟨r, hr⟩ : ∃ r, Rule.from_dict fancyDict = Except.ok r := ⟨_, rfl⟩
    exact ⟨r, hr, (unrecognized_rule_kind_simple engW fancyRule failEntry
      (by decide)).2 fancyDict "fancy" r rfl hr⟩

end SysLogVal
